import Mathlib

/-!
Shallow embedding of the client-side lightbox component
(src/components/photo-modal.ts) of the minimalist-photo-journal
repository: the slide cache with LRU eviction, slide activation,
the process-wide decoded-index record, caption rendering, keyboard
and pointer-gesture navigation, and the modal open/close lifecycle.

The DOM environment is abstracted as a thumbnail-lookup function
from an index to the photo payload that getPhotoPayloadFromImg would
extract from the thumbnail at that index; absence of a thumbnail is
modelled as none.
-/

namespace PhotoModal

/-- The PhotoPayload record of photo-modal.ts. Optional string fields
are JS undefined-or-string; curIndex is parsed with parseInt from a
data attribute and is modelled as the parsed natural index. -/
structure PhotoPayload where
  src : String
  srcset : Option String := none
  sizes : Option String := none
  alt : Option String := none
  date : Option String := none
  camera : Option String := none
  film : Option String := none
  description : Option String := none
  location : Option String := none
  placeholder : Option String := none
  curIndex : Nat := 0
deriving Repr, DecidableEq

/-- How the reveal of the full image of a freshly built slide is wired
in ensureSlide: immediate when decodedOnce already holds the index
(reveal() is invoked synchronously), pending otherwise (an
asynchronous decode step is registered: the decode() promise with a
load-event fallback). -/
inductive RevealMode where
  | immediate
  | pending
deriving Repr, DecidableEq

/-- Observable state of one cached slide (the SlideEls record plus the
attributes the component sets on its root element): the data-index
attribute, the active class, the aria-hidden attribute, whether the
placeholder img is displayed, the inline translateX transform
(none when the transform is cleared), and how its reveal was wired. -/
structure SlideEls where
  dataIndex : Nat
  active : Bool
  ariaHidden : Bool
  phShown : Bool
  transform : Option Int
  reveal : RevealMode
deriving Repr, DecidableEq

/-- The whole component state: current index, the slide cache (an
association list mirroring the Map from index to SlideEls), the LRU
order, the module-level decodedOnce set (as a duplicate-free list),
dialog open flag, document.body.style.overflow, the five caption text
fields, and the pointer-gesture fields. -/
structure ModalState where
  curIndex : Nat
  slides : List (Nat × SlideEls)
  lru : List Nat
  decodedOnce : List Nat
  dlgOpen : Bool
  bodyOverflow : String
  capDate : String
  capCamera : String
  capFilm : String
  capDesc : String
  capLocation : String
  pointerId : Option Nat
  startX : Int
  startY : Int
  lastX : Int
  isSwiping : Bool
  startTime : Int
deriving Repr, DecidableEq

/-- State at page load: empty cache, modal closed, no gesture. -/
def initState : ModalState :=
  { curIndex := 0, slides := [], lru := [], decodedOnce := [],
    dlgOpen := false, bodyOverflow := "",
    capDate := "", capCamera := "", capFilm := "", capDesc := "",
    capLocation := "",
    pointerId := none, startX := 0, startY := 0, lastX := 0,
    isSwiping := false, startTime := 0 }

/-- MAX_SLIDES = 40, the slide cache capacity. -/
def MAX_SLIDES : Nat := 40

/-- SWIPE_PX = 50, the swipe distance threshold in pixels. -/
def SWIPE_PX : Nat := 50

/-- VELOCITY_PX_PER_MS = 0.5, the quick-flick velocity threshold. -/
def VELOCITY_PX_PER_MS : ℚ := (5 : ℚ) / 10

/-- ANGLE_LOCK = 1.4, the horizontal-over-vertical ratio for the swipe
lock. -/
def ANGLE_LOCK : ℚ := (14 : ℚ) / 10

/-- Map.get on the slide cache. -/
def lookupSlide : List (Nat × SlideEls) → Nat → Option SlideEls
  | [], _ => none
  | kv :: rest, i => if kv.1 = i then some kv.2 else lookupSlide rest i

/-- Map.delete on the slide cache (removing every pair at the key,
which is the single pair when keys are duplicate-free). -/
def removeSlide : List (Nat × SlideEls) → Nat → List (Nat × SlideEls)
  | [], _ => []
  | kv :: rest, i =>
      if kv.1 = i then removeSlide rest i else kv :: removeSlide rest i

/-- The key set of the slide cache, in insertion order. -/
def keys (slides : List (Nat × SlideEls)) : List Nat :=
  slides.map Prod.fst

/-- The filter dropping every occurrence of a value from a list of
indices (Array.prototype.filter with an inequality test). -/
def removeAllNat : List Nat → Nat → List Nat
  | [], _ => []
  | x :: rest, a =>
      if x = a then removeAllNat rest a else x :: removeAllNat rest a

/-- touchLRU: drop the index from the LRU list and push it at the
most-recently-used end. -/
def touchLRU (lru : List Nat) (index : Nat) : List Nat :=
  removeAllNat lru index ++ [index]

/-- The eviction scan: the first entry of the LRU list, read from the
least-recently-used end, that differs from the current index. -/
def findVictim (cur : Nat) : List Nat → Option Nat
  | [] => none
  | v :: rest => if v = cur then findVictim cur rest else some v

/-- Set.add on the decodedOnce record (duplicate-free list). -/
def insertDecoded (decoded : List Nat) (i : Nat) : List Nat :=
  if i ∈ decoded then decoded else i :: decoded

/-- JS truthiness of an optional string attribute: undefined and the
empty string are falsy. -/
def optionTruthy : Option String → Bool
  | none => false
  | some str => str != ""

/-- evictIfNeeded: return unless the cache has reached MAX_SLIDES;
otherwise scan the LRU list from least- to most-recently-used, skip
the current index, and for the first other entry delete it from the
slide map (when present) and filter it out of the LRU list, stopping
after that single removal. -/
def evictIfNeeded (s : ModalState) : ModalState :=
  if s.slides.length < MAX_SLIDES then s
  else
    match findVictim s.curIndex s.lru with
    | none => s
    | some victim =>
        { s with
          slides := removeSlide s.slides victim,
          lru := removeAllNat s.lru victim }

/-- ensureSlide: on a cache hit, touch the LRU entry and return;
on a miss, evict if needed, build the slide (placeholder displayed
only when the payload has a truthy placeholder and the index was
never decoded; the reveal is synchronous when decodedOnce already
holds the index, and an asynchronous decode step is registered
otherwise), insert it in the map and touch the LRU entry. The
synchronous reveal re-adds the index to decodedOnce (a no-op on the
set). -/
def ensureSlide (index : Nat) (p : PhotoPayload) (s : ModalState) :
    ModalState :=
  match lookupSlide s.slides index with
  | some _ => { s with lru := touchLRU s.lru index }
  | none =>
    let s1 := evictIfNeeded s
    let alreadyDecoded := index ∈ s1.decodedOnce
    let slideNew : SlideEls :=
      { dataIndex := index, active := false, ariaHidden := true,
        phShown := optionTruthy p.placeholder && !(decide alreadyDecoded),
        transform := none,
        reveal := if alreadyDecoded then RevealMode.immediate
                  else RevealMode.pending }
    { s1 with
      slides := (index, slideNew) :: s1.slides,
      lru := touchLRU s1.lru index,
      decodedOnce :=
        if alreadyDecoded then insertDecoded s1.decodedOnce index
        else s1.decodedOnce }

/-- The loop body of activateSlide for one cached slide: toggle the
active class on equality of its key with the given index, set
aria-hidden accordingly, and clear the drag transform when it goes
inactive. -/
def activateEntry (index : Nat) (kv : Nat × SlideEls) :
    Nat × SlideEls :=
  if kv.1 = index then
    (kv.1, { kv.2 with active := true, ariaHidden := false })
  else
    (kv.1, { kv.2 with active := false, ariaHidden := true,
                       transform := none })

/-- activateSlide: run the toggle over every cached slide. -/
def activateSlide (index : Nat) (s : ModalState) : ModalState :=
  { s with slides := s.slides.map (activateEntry index) }

/-- updateCaption: date, description and location fall back to the
empty string; camera and film fall back to the placeholder glyph. -/
def updateCaption (p : PhotoPayload) (s : ModalState) : ModalState :=
  { s with
    capDate := p.date.getD "",
    capDesc := p.description.getD "",
    capLocation := p.location.getD "",
    capCamera := p.camera.getD "—",
    capFilm := p.film.getD "—" }

/-- One iteration of the preloadNeighbors loop body at a non-negative
index: skip when already cached or when no thumbnail resolves,
otherwise ensure the slide from the extracted payload. -/
def preloadOne (dom : Nat → Option PhotoPayload) (i : Nat)
    (s : ModalState) : ModalState :=
  if (lookupSlide s.slides i).isSome then s
  else
    match dom i with
    | none => s
    | some payload => ensureSlide i payload s

/-- preloadNeighbors: run the loop body over index-1 and index+1,
skipping negative indices. -/
def preloadNeighbors (dom : Nat → Option PhotoPayload) (index : Nat)
    (s : ModalState) : ModalState :=
  [(index : Int) - 1, (index : Int) + 1].foldl
    (fun acc i => if i < 0 then acc else preloadOne dom i.toNat acc) s

/-- navigateTo: resolve the thumbnail at nextIndex (silent no-op when
absent), then set the current index, update the caption, ensure and
activate the slide, and preload neighbors. -/
def navigateTo (dom : Nat → Option PhotoPayload) (nextIndex : Nat)
    (s : ModalState) : ModalState :=
  match dom nextIndex with
  | none => s
  | some payload =>
    let s1 := { s with curIndex := nextIndex }
    let s2 := updateCaption payload s1
    let s3 := ensureSlide nextIndex payload s2
    let s4 := activateSlide nextIndex s3
    preloadNeighbors dom nextIndex s4

/-- openWith: set the current index from the payload, update the
caption, ensure and activate the slide, show the modal and lock page
scroll when it was closed, and preload neighbors. -/
def openWith (dom : Nat → Option PhotoPayload) (p : PhotoPayload)
    (s : ModalState) : ModalState :=
  let index := p.curIndex
  let s1 := { s with curIndex := index }
  let s2 := updateCaption p s1
  let s3 := ensureSlide index p s2
  let s4 := activateSlide index s3
  let s5 := if s4.dlgOpen then s4
            else { s4 with dlgOpen := true, bodyOverflow := "hidden" }
  preloadNeighbors dom index s5

/-- The bare open() helper: showModal when closed, nothing else. -/
def openModal (s : ModalState) : ModalState :=
  if s.dlgOpen then s else { s with dlgOpen := true }

/-- close(): close the dialog when open and always clear the
body-overflow scroll lock. -/
def closeModal (s : ModalState) : ModalState :=
  let s1 := if s.dlgOpen then { s with dlgOpen := false } else s
  { s1 with bodyOverflow := "" }

/-- Keyboard inputs the onKeyDown handler distinguishes. -/
inductive Key where
  | escape
  | arrowLeft
  | arrowRight
  | other
deriving Repr, DecidableEq

/-- onKeyDown: ignored while closed; Escape closes; ArrowLeft is a
no-op at index 0 and otherwise navigates to the previous index;
ArrowRight is a no-op when no thumbnail carries the next index and
otherwise navigates to it. -/
def onKeyDown (dom : Nat → Option PhotoPayload) (k : Key)
    (s : ModalState) : ModalState :=
  if !s.dlgOpen then s
  else
    match k with
    | Key.escape => closeModal s
    | Key.other => s
    | Key.arrowLeft =>
        if s.curIndex = 0 then s
        else navigateTo dom (s.curIndex - 1) s
    | Key.arrowRight =>
        match dom (s.curIndex + 1) with
        | none => s
        | some _ => navigateTo dom (s.curIndex + 1) s

/-- Pointer types the gesture handlers distinguish. -/
inductive PtrType where
  | touch
  | pen
  | mouse
deriving Repr, DecidableEq

/-- The pointer-event fields the handlers read. -/
structure PtrEvent where
  pointerId : Nat
  pointerType : PtrType
  clientX : Int
  clientY : Int
deriving Repr, DecidableEq

/-- Write the inline transform of the slide cached at the given index,
when present (the style mutation through slides.get). -/
def setTransformAt (slides : List (Nat × SlideEls)) (i : Nat)
    (t : Option Int) : List (Nat × SlideEls) :=
  slides.map (fun kv =>
    if kv.1 = i then (kv.1, { kv.2 with transform := t }) else kv)

/-- onPointerDown: ignored while the dialog is closed or for mouse
pointers; otherwise unconditionally record the pointer id, start
position and start time, leave the Swiping lock unset, and clear any
residual transform on the active slide. -/
def onPointerDown (e : PtrEvent) (now : Int) (s : ModalState) :
    ModalState :=
  if !s.dlgOpen then s
  else if e.pointerType ≠ PtrType.touch ∧ e.pointerType ≠ PtrType.pen
  then s
  else
    { s with
      pointerId := some e.pointerId,
      startX := e.clientX, startY := e.clientY, lastX := e.clientX,
      isSwiping := false, startTime := now,
      slides := setTransformAt s.slides s.curIndex none }

/-- onPointerMove: ignored unless the event's pointer id matches the
tracked one; until the Swiping lock is reached, require a horizontal
displacement above 10 px that exceeds ANGLE_LOCK times the vertical
one; once swiping, record the last x and drag the active slide by the
horizontal displacement. -/
def onPointerMove (e : PtrEvent) (s : ModalState) : ModalState :=
  if s.pointerId ≠ some e.pointerId then s
  else
    let dx := e.clientX - s.startX
    let dy := e.clientY - s.startY
    if !s.isSwiping ∧
        ¬(10 < dx.natAbs ∧ (dy.natAbs : ℚ) * ANGLE_LOCK < (dx.natAbs : ℚ))
    then s
    else
      { s with
        isSwiping := true, lastX := e.clientX,
        slides := setTransformAt s.slides s.curIndex (some dx) }

/-- Total horizontal displacement of the gesture at pointer-up. -/
def swipeDx (e : PtrEvent) (s : ModalState) : Int :=
  e.clientX - s.startX

/-- Elapsed gesture time in milliseconds, clamped below by 1. -/
def swipeDt (now : Int) (s : ModalState) : Int :=
  max 1 (now - s.startTime)

/-- Gesture velocity: absolute displacement over elapsed time. -/
def swipeVelocity (e : PtrEvent) (now : Int) (s : ModalState) : ℚ :=
  ((swipeDx e s).natAbs : ℚ) / ((swipeDt now s : Int) : ℚ)

/-- The pointer-up threshold test: distance above SWIPE_PX, or
velocity above VELOCITY_PX_PER_MS. -/
def swipePassed (e : PtrEvent) (now : Int) (s : ModalState) : Bool :=
  decide (SWIPE_PX < (swipeDx e s).natAbs) ||
  decide (VELOCITY_PX_PER_MS < swipeVelocity e now s)

/-- Whether the onPointerUp control flow reaches a navigateTo call:
the pointer id matches, the Swiping lock was reached, a threshold
passed, and the direction resolves (a positive displacement needs a
current index above 0; a non-positive one needs a thumbnail at the
next index). -/
def pointerUpCommits (dom : Nat → Option PhotoPayload) (e : PtrEvent)
    (now : Int) (s : ModalState) : Bool :=
  if s.pointerId ≠ some e.pointerId then false
  else if !s.isSwiping || !swipePassed e now s then false
  else if 0 < swipeDx e s then decide (s.curIndex ≠ 0)
  else (dom (s.curIndex + 1)).isSome

/-- onPointerUp: ignored unless the pointer id matches; reset the
tracked pointer, snap the active slide transform back, and unless the
Swiping lock was reached and a threshold passed, stop there; a
positive displacement navigates to the previous index (no-op at 0), a
non-positive one navigates to the next index when its thumbnail
exists; the Swiping lock is released in every case. -/
def onPointerUp (dom : Nat → Option PhotoPayload) (e : PtrEvent)
    (now : Int) (s : ModalState) : ModalState :=
  if s.pointerId ≠ some e.pointerId then s
  else
    let goLeft := 0 < swipeDx e s
    let passed := swipePassed e now s
    let s1 := { s with pointerId := none,
                       slides := setTransformAt s.slides s.curIndex none }
    if !s.isSwiping || !passed then { s1 with isSwiping := false }
    else if goLeft then
      if s.curIndex = 0 then { s1 with isSwiping := false }
      else { navigateTo dom (s.curIndex - 1) s1 with isSwiping := false }
    else
      match dom (s.curIndex + 1) with
      | none => { s1 with isSwiping := false }
      | some _ =>
          { navigateTo dom (s.curIndex + 1) s1 with isSwiping := false }

/-- onPointerCancel: clear the active-slide transform and reset the
gesture fields. -/
def onPointerCancel (s : ModalState) : ModalState :=
  { s with slides := setTransformAt s.slides s.curIndex none,
           pointerId := none, isSwiping := false }

/-- One event-loop occurrence affecting the component: its public
entry points, the event handlers, and the asynchronous completion of
a registered reveal (the decode promise or load event firing, whose
callback adds the index to decodedOnce). -/
inductive Op where
  | evOpenWith (p : PhotoPayload)
  | evOpen
  | evClose
  | evKeyDown (k : Key)
  | evPointerDown (e : PtrEvent) (now : Int)
  | evPointerMove (e : PtrEvent)
  | evPointerUp (e : PtrEvent) (now : Int)
  | evPointerCancel (e : PtrEvent)
  | evRevealComplete (index : Nat)

/-- Dispatch one occurrence. -/
def step (dom : Nat → Option PhotoPayload) (op : Op) (s : ModalState) :
    ModalState :=
  match op with
  | Op.evOpenWith p => openWith dom p s
  | Op.evOpen => openModal s
  | Op.evClose => closeModal s
  | Op.evKeyDown k => onKeyDown dom k s
  | Op.evPointerDown e now => onPointerDown e now s
  | Op.evPointerMove e => onPointerMove e s
  | Op.evPointerUp e now => onPointerUp dom e now s
  | Op.evPointerCancel _ => onPointerCancel s
  | Op.evRevealComplete index =>
      { s with decodedOnce := insertDecoded s.decodedOnce index }

/-- Run a sequence of occurrences from a state. -/
def run (dom : Nat → Option PhotoPayload) (ops : List Op)
    (s : ModalState) : ModalState :=
  ops.foldl (fun acc op => step dom op acc) s

/-- Number of live (non-evicted) slides in the cache. -/
def liveSlideCount (s : ModalState) : Nat := s.slides.length

/-- Number of cached slides carrying the active class. -/
def countActive (s : ModalState) : Nat :=
  (s.slides.filter (fun kv => kv.2.active)).length

/-- The cache-coherence invariant: duplicate-free keys, a
duplicate-free LRU list, and the LRU entries coincide with the key
set of the slide map. -/
def CacheSync (s : ModalState) : Prop :=
  (keys s.slides).Nodup ∧ s.lru.Nodup ∧
  s.lru ⊆ keys s.slides ∧ keys s.slides ⊆ s.lru

instance (l₁ l₂ : List Nat) : Decidable (l₁ ⊆ l₂) :=
  decidable_of_iff (∀ x ∈ l₁, x ∈ l₂) Iff.rfl

instance (s : ModalState) : Decidable (CacheSync s) :=
  decidable_of_iff
    ((keys s.slides).Nodup ∧ s.lru.Nodup ∧
      s.lru ⊆ keys s.slides ∧ keys s.slides ⊆ s.lru) Iff.rfl

/-- Coherence together with the capacity bound. -/
def GoodCache (s : ModalState) : Prop :=
  CacheSync s ∧ s.slides.length ≤ MAX_SLIDES

/-- The non-cache observable component of the state: every field other
than the slide map, the LRU list and the decodedOnce record. -/
def outside (s : ModalState) :=
  (s.curIndex, s.dlgOpen, s.bodyOverflow, s.capDate, s.capCamera,
   s.capFilm, s.capDesc, s.capLocation, s.pointerId, s.startX,
   s.startY, s.lastX, s.isSwiping, s.startTime)

/-- Two states agreeing outside the cache fields. -/
def sameOutside (s t : ModalState) : Prop := outside t = outside s

/-! ## Concrete fixtures for witnesses and counterexamples -/

/-- A minimal payload with every optional field absent. -/
def pEmpty : PhotoPayload := { src := "x" }

/-- A page with no thumbnails. -/
def domNone : Nat → Option PhotoPayload := fun _ => none

/-- A page whose thumbnails carry indices 0 through 5. -/
def domSix : Nat → Option PhotoPayload := fun i =>
  if i ≤ 5 then some { src := "x", curIndex := i } else none

/-- An inactive slide record for fixture states. -/
def blankSlide (i : Nat) : SlideEls :=
  { dataIndex := i, active := false, ariaHidden := true,
    phShown := false, transform := none, reveal := RevealMode.pending }

/-- A coherent state whose cache is at capacity. -/
def fullState : ModalState :=
  { initState with
      slides := (List.range MAX_SLIDES).map (fun i => (i, blankSlide i))
      lru := List.range MAX_SLIDES }

/-- A state with one decoded index on record. -/
def decodedState : ModalState :=
  { initState with decodedOnce := [5] }

/-- An open modal with an idle gesture. -/
def openIdle : ModalState :=
  { initState with dlgOpen := true }

/-- An open modal tracking pointer 1. -/
def trackSt : ModalState :=
  { initState with
      dlgOpen := true
      pointerId := some 1 }

/-- An open modal at index 0 amid a locked swipe of pointer 1 started
at the origin at time 0. -/
def swipeSt : ModalState :=
  { initState with
      dlgOpen := true
      pointerId := some 1
      isSwiping := true }

/-- An open modal at index 2 amid a locked swipe of pointer 1. -/
def swipeSt2 : ModalState :=
  { initState with
      dlgOpen := true
      curIndex := 2
      pointerId := some 1
      isSwiping := true }

/-- A pointer-up event of pointer 1 sixty pixels right of the start. -/
def evRight60 : PtrEvent :=
  { pointerId := 1, pointerType := PtrType.touch, clientX := 60,
    clientY := 0 }

/-- A pointer-up event of pointer 1 sixty pixels left of the start. -/
def evLeft60 : PtrEvent :=
  { pointerId := 1, pointerType := PtrType.touch, clientX := -60,
    clientY := 0 }

/-- A pointer-down event of a second touch pointer. -/
def evSecond : PtrEvent :=
  { pointerId := 2, pointerType := PtrType.touch, clientX := 0,
    clientY := 0 }

/-! ## Association-list and LRU-list lemmas -/

theorem lookupSlide_isSome_iff (l : List (Nat × SlideEls)) (i : Nat) :
    (lookupSlide l i).isSome ↔ i ∈ keys l := by
  induction l with
  | nil => simp [lookupSlide, keys]
  | cons kv rest ih =>
    by_cases h : kv.1 = i
    · simp [lookupSlide, keys, h]
    · simp only [lookupSlide, keys, if_neg h, List.map_cons, List.mem_cons]
      rw [ih]
      simp [keys, Ne.symm h]

theorem lookupSlide_eq_none_iff (l : List (Nat × SlideEls)) (i : Nat) :
    lookupSlide l i = none ↔ i ∉ keys l := by
  rw [← lookupSlide_isSome_iff]
  cases lookupSlide l i <;> simp

theorem mem_removeAllNat {l : List Nat} {a j : Nat} :
    j ∈ removeAllNat l a ↔ j ∈ l ∧ j ≠ a := by
  induction l with
  | nil => simp [removeAllNat]
  | cons x rest ih =>
    by_cases h : x = a
    · subst h
      rw [removeAllNat, if_pos rfl, ih]
      constructor
      · rintro ⟨h1, h2⟩
        exact ⟨List.mem_cons_of_mem _ h1, h2⟩
      · rintro ⟨h1, h2⟩
        rcases List.mem_cons.1 h1 with rfl | h1
        · exact absurd rfl h2
        · exact ⟨h1, h2⟩
    · rw [removeAllNat, if_neg h]
      constructor
      · intro hmem
        rcases List.mem_cons.1 hmem with rfl | hmem
        · exact ⟨List.mem_cons_self _ _, h⟩
        · obtain ⟨h1, h2⟩ := ih.1 hmem
          exact ⟨List.mem_cons_of_mem _ h1, h2⟩
      · rintro ⟨h1, h2⟩
        rcases List.mem_cons.1 h1 with rfl | h1
        · exact List.mem_cons_self _ _
        · exact List.mem_cons_of_mem _ (ih.2 ⟨h1, h2⟩)

theorem removeAllNat_eq_self_of_not_mem {l : List Nat} {a : Nat}
    (h : a ∉ l) : removeAllNat l a = l := by
  induction l with
  | nil => rfl
  | cons x rest ih =>
    simp only [List.mem_cons, not_or] at h
    rw [removeAllNat, if_neg (fun hh => h.1 hh.symm), ih h.2]

theorem nodup_removeAllNat {l : List Nat} {a : Nat} (h : l.Nodup) :
    (removeAllNat l a).Nodup := by
  induction l with
  | nil => simp [removeAllNat]
  | cons x rest ih =>
    rw [List.nodup_cons] at h
    by_cases hx : x = a
    · rw [removeAllNat, if_pos hx]
      exact ih h.2
    · rw [removeAllNat, if_neg hx, List.nodup_cons]
      exact ⟨fun hmem => h.1 (mem_removeAllNat.1 hmem).1, ih h.2⟩

theorem removeAllNat_append_cons {pre post : List Nat} {v : Nat}
    (hpre : ∀ x ∈ pre, x ≠ v) (hpost : v ∉ post) :
    removeAllNat (pre ++ v :: post) v = pre ++ post := by
  induction pre with
  | nil =>
    rw [List.nil_append, removeAllNat, if_pos rfl,
        removeAllNat_eq_self_of_not_mem hpost, List.nil_append]
  | cons x rest ih =>
    rw [List.cons_append, removeAllNat,
        if_neg (hpre x (List.mem_cons_self _ _)), List.cons_append,
        ih (fun y hy => hpre y (List.mem_cons_of_mem _ hy))]

theorem mem_keys_removeSlide {l : List (Nat × SlideEls)} {v j : Nat} :
    j ∈ keys (removeSlide l v) ↔ j ∈ keys l ∧ j ≠ v := by
  induction l with
  | nil => simp [removeSlide, keys]
  | cons kv rest ih =>
    by_cases h : kv.1 = v
    · rw [removeSlide, if_pos h, ih]
      subst h
      constructor
      · rintro ⟨h1, h2⟩
        exact ⟨by simp [keys, List.mem_cons]; exact Or.inr (by simpa [keys] using h1), h2⟩
      · rintro ⟨h1, h2⟩
        simp only [keys, List.map_cons, List.mem_cons] at h1
        rcases h1 with rfl | h1
        · exact absurd rfl h2
        · exact ⟨by simpa [keys] using h1, h2⟩
    · rw [removeSlide, if_neg h]
      simp only [keys, List.map_cons, List.mem_cons] at *
      constructor
      · rintro (rfl | hmem)
        · exact ⟨Or.inl rfl, h⟩
        · obtain ⟨h1, h2⟩ := ih.1 (by simpa [keys] using hmem)
          exact ⟨Or.inr (by simpa [keys] using h1), h2⟩
      · rintro ⟨h1, h2⟩
        rcases h1 with rfl | h1
        · exact Or.inl rfl
        · exact Or.inr (by simpa [keys] using ih.2 ⟨by simpa [keys] using h1, h2⟩)

theorem nodup_keys_removeSlide {l : List (Nat × SlideEls)} {v : Nat}
    (h : (keys l).Nodup) : (keys (removeSlide l v)).Nodup := by
  induction l with
  | nil => simp [removeSlide, keys]
  | cons kv rest ih =>
    simp only [keys, List.map_cons, List.nodup_cons] at h
    by_cases hk : kv.1 = v
    · rw [removeSlide, if_pos hk]
      exact ih h.2
    · rw [removeSlide, if_neg hk]
      simp only [keys, List.map_cons, List.nodup_cons]
      refine ⟨fun hmem => ?_, ih h.2⟩
      exact h.1 (by simpa [keys] using (mem_keys_removeSlide.1 (by simpa [keys] using hmem)).1)

theorem removeSlide_eq_self_of_not_mem {l : List (Nat × SlideEls)}
    {v : Nat} (h : v ∉ keys l) : removeSlide l v = l := by
  induction l with
  | nil => rfl
  | cons kv rest ih =>
    simp only [keys, List.map_cons, List.mem_cons, not_or] at h
    rw [removeSlide, if_neg (fun hh => h.1 hh.symm),
        ih (by simpa [keys] using h.2)]

theorem length_removeSlide_of_mem {l : List (Nat × SlideEls)} {v : Nat}
    (hnodup : (keys l).Nodup) (hmem : v ∈ keys l) :
    (removeSlide l v).length + 1 = l.length := by
  induction l with
  | nil => simp [keys] at hmem
  | cons kv rest ih =>
    simp only [keys, List.map_cons, List.nodup_cons] at hnodup
    by_cases h : kv.1 = v
    · rw [removeSlide, if_pos h,
          removeSlide_eq_self_of_not_mem (h ▸ hnodup.1 : v ∉ keys rest)]
      simp
    · have hmem : v ∈ keys rest := by
        simp only [keys, List.map_cons, List.mem_cons] at hmem
        rcases hmem with rfl | hmem
        · exact absurd rfl h
        · simpa [keys] using hmem
      rw [removeSlide, if_neg h]
      simp only [List.length_cons]
      rw [← ih hnodup.2 hmem]

theorem lookupSlide_removeSlide_self (l : List (Nat × SlideEls))
    (v : Nat) : lookupSlide (removeSlide l v) v = none := by
  rw [lookupSlide_eq_none_iff, mem_keys_removeSlide]
  simp

theorem lookupSlide_removeSlide_ne (l : List (Nat × SlideEls))
    {v j : Nat} (h : j ≠ v) :
    lookupSlide (removeSlide l v) j = lookupSlide l j := by
  induction l with
  | nil => rfl
  | cons kv rest ih =>
    by_cases hk : kv.1 = v
    · rw [removeSlide, if_pos hk, lookupSlide,
          if_neg (by rw [hk]; exact fun hh => h hh.symm), ih]
    · rw [removeSlide, if_neg hk]
      by_cases hj : kv.1 = j
      · rw [lookupSlide, if_pos hj, lookupSlide, if_pos hj]
      · rw [lookupSlide, if_neg hj, lookupSlide, if_neg hj, ih]

theorem lookupSlide_cons_self (i : Nat) (sl : SlideEls)
    (rest : List (Nat × SlideEls)) :
    lookupSlide ((i, sl) :: rest) i = some sl := by
  show (if i = i then some sl else lookupSlide rest i) = some sl
  rw [if_pos rfl]

theorem mem_touchLRU {l : List Nat} {i j : Nat} :
    j ∈ touchLRU l i ↔ j ∈ l ∨ j = i := by
  simp only [touchLRU, List.mem_append, List.mem_singleton,
    mem_removeAllNat]
  constructor
  · rintro (⟨h, _⟩ | h)
    · exact Or.inl h
    · exact Or.inr h
  · rintro (h | h)
    · by_cases hji : j = i
      · exact Or.inr hji
      · exact Or.inl ⟨h, hji⟩
    · exact Or.inr h

theorem nodup_touchLRU {l : List Nat} {i : Nat} (h : l.Nodup) :
    (touchLRU l i).Nodup := by
  rw [touchLRU, List.nodup_append]
  refine ⟨nodup_removeAllNat h, List.nodup_singleton i, ?_⟩
  intro a ha hb
  rw [List.mem_singleton] at hb
  subst hb
  exact (mem_removeAllNat.1 ha).2 rfl

theorem nodup_all_eq_length_le_one {l : List Nat} {a : Nat}
    (hnd : l.Nodup) (hall : ∀ x ∈ l, x = a) : l.length ≤ 1 := by
  match l with
  | [] => simp
  | [x] => simp
  | x :: y :: rest =>
    exfalso
    have hx : x = a := hall x (by simp)
    have hy : y = a := hall y (by simp)
    rw [List.nodup_cons] at hnd
    exact hnd.1 (by rw [hx, ← hy]; simp)

theorem findVictim_eq_none_iff {cur : Nat} {l : List Nat} :
    findVictim cur l = none ↔ ∀ x ∈ l, x = cur := by
  induction l with
  | nil => simp [findVictim]
  | cons x rest ih =>
    by_cases h : x = cur
    · subst h
      rw [findVictim, if_pos rfl, ih]
      constructor
      · intro hall y hy
        rcases List.mem_cons.1 hy with rfl | hy
        · rfl
        · exact hall y hy
      · intro hall y hy
        exact hall y (List.mem_cons_of_mem _ hy)
    · rw [findVictim, if_neg h]
      simp only [reduceCtorEq, false_iff, not_forall]
      exact ⟨x, List.mem_cons_self _ _, h⟩

theorem findVictim_decompose {cur : Nat} {l : List Nat} {v : Nat}
    (h : findVictim cur l = some v) :
    v ≠ cur ∧ ∃ pre post, l = pre ++ v :: post ∧ ∀ x ∈ pre, x = cur := by
  induction l with
  | nil => simp [findVictim] at h
  | cons x rest ih =>
    by_cases hx : x = cur
    · rw [findVictim, if_pos hx] at h
      obtain ⟨hne, pre, post, heq, hpre⟩ := ih h
      refine ⟨hne, x :: pre, post, by rw [heq, List.cons_append], ?_⟩
      intro y hy
      rcases List.mem_cons.1 hy with rfl | hy
      · exact hx
      · exact hpre y hy
    · rw [findVictim, if_neg hx] at h
      obtain rfl : x = v := by simpa using h
      exact ⟨hx, [], rest, rfl, by simp⟩

/-! ## Eviction characterization and cache invariants -/

theorem evictIfNeeded_lookup_cur (s : ModalState) :
    lookupSlide (evictIfNeeded s).slides s.curIndex
      = lookupSlide s.slides s.curIndex := by
  rw [evictIfNeeded]
  by_cases hlen : s.slides.length < MAX_SLIDES
  · rw [if_pos hlen]
  · rw [if_neg hlen]
    cases hfv : findVictim s.curIndex s.lru with
    | none => rfl
    | some victim =>
      exact lookupSlide_removeSlide_ne _
        (Ne.symm (findVictim_decompose hfv).1)

theorem keys_evict_subset (s : ModalState) :
    keys (evictIfNeeded s).slides ⊆ keys s.slides := by
  rw [evictIfNeeded]
  by_cases hlen : s.slides.length < MAX_SLIDES
  · rw [if_pos hlen]
    exact fun _ hj => hj
  · rw [if_neg hlen]
    cases hfv : findVictim s.curIndex s.lru with
    | none => exact fun _ hj => hj
    | some victim =>
      exact fun j hj => (mem_keys_removeSlide.1 hj).1

theorem evictIfNeeded_decodedOnce (s : ModalState) :
    (evictIfNeeded s).decodedOnce = s.decodedOnce := by
  rw [evictIfNeeded]
  by_cases hlen : s.slides.length < MAX_SLIDES
  · rw [if_pos hlen]
  · rw [if_neg hlen]
    cases hfv : findVictim s.curIndex s.lru with
    | none => rfl
    | some victim => rfl

theorem evictIfNeeded_spec (s : ModalState) (hs : CacheSync s)
    (hcap : MAX_SLIDES ≤ s.slides.length) :
    ∃ victim pre post,
      s.lru = pre ++ victim :: post ∧
      (∀ x ∈ pre, x = s.curIndex) ∧
      victim ≠ s.curIndex ∧
      victim ∈ keys s.slides ∧
      (evictIfNeeded s).slides = removeSlide s.slides victim ∧
      (evictIfNeeded s).lru = pre ++ post ∧
      (evictIfNeeded s).slides.length + 1 = s.slides.length ∧
      (evictIfNeeded s).lru.length + 1 = s.lru.length := by
  obtain ⟨hknd, hlnd, hlk, hkl⟩ := hs
  have hnotlt : ¬ s.slides.length < MAX_SLIDES := Nat.not_lt.2 hcap
  cases hfv : findVictim s.curIndex s.lru with
  | none =>
    exfalso
    have hall := findVictim_eq_none_iff.1 hfv
    have hle : (keys s.slides).length ≤ 1 :=
      nodup_all_eq_length_le_one hknd (fun x hx => hall x (hkl hx))
    have hlen : (keys s.slides).length = s.slides.length :=
      List.length_map _ _
    have hMAX : MAX_SLIDES = 40 := rfl
    omega
  | some victim =>
    obtain ⟨hne, pre, post, heq, hpre⟩ := findVictim_decompose hfv
    have hvl : victim ∈ s.lru := by rw [heq]; simp
    have hvk : victim ∈ keys s.slides := hlk hvl
    have hpost : victim ∉ post := by
      rw [heq] at hlnd
      exact (List.nodup_cons.1 hlnd.of_append_right).1
    have hpre2 : ∀ x ∈ pre, x ≠ victim := by
      intro x hx
      rw [hpre x hx]
      exact Ne.symm hne
    have hev : evictIfNeeded s =
        { s with slides := removeSlide s.slides victim,
                 lru := removeAllNat s.lru victim } := by
      rw [evictIfNeeded, if_neg hnotlt, hfv]
    have hlrueq : removeAllNat s.lru victim = pre ++ post := by
      rw [heq]
      exact removeAllNat_append_cons hpre2 hpost
    refine ⟨victim, pre, post, heq, hpre, hne, hvk, ?_, ?_, ?_, ?_⟩
    · rw [hev]
    · rw [hev]
      exact hlrueq
    · rw [hev]
      exact length_removeSlide_of_mem hknd hvk
    · rw [hev]
      show (removeAllNat s.lru victim).length + 1 = s.lru.length
      rw [hlrueq, heq]
      simp [List.length_append]
      omega

theorem cacheSync_evict (s : ModalState) (hs : CacheSync s) :
    CacheSync (evictIfNeeded s) := by
  obtain ⟨hknd, hlnd, hlk, hkl⟩ := hs
  rw [evictIfNeeded]
  by_cases hlen : s.slides.length < MAX_SLIDES
  · rw [if_pos hlen]
    exact ⟨hknd, hlnd, hlk, hkl⟩
  · rw [if_neg hlen]
    cases hfv : findVictim s.curIndex s.lru with
    | none => exact ⟨hknd, hlnd, hlk, hkl⟩
    | some victim =>
      refine ⟨nodup_keys_removeSlide hknd, nodup_removeAllNat hlnd,
        ?_, ?_⟩
      · intro j hj
        obtain ⟨hj1, hj2⟩ := mem_removeAllNat.1 hj
        exact mem_keys_removeSlide.2 ⟨hlk hj1, hj2⟩
      · intro j hj
        obtain ⟨hj1, hj2⟩ := mem_keys_removeSlide.1 hj
        exact mem_removeAllNat.2 ⟨hkl hj1, hj2⟩

theorem goodCache_evict (s : ModalState) (h : GoodCache s) :
    GoodCache (evictIfNeeded s) ∧
    (evictIfNeeded s).slides.length < MAX_SLIDES := by
  obtain ⟨hs, hcap⟩ := h
  by_cases hlen : s.slides.length < MAX_SLIDES
  · rw [evictIfNeeded, if_pos hlen]
    exact ⟨⟨hs, hcap⟩, hlen⟩
  · obtain ⟨victim, pre, post, _, _, _, _, _, _, hlen1, _⟩ :=
      evictIfNeeded_spec s hs (Nat.not_lt.1 hlen)
    have hcap2 : s.slides.length ≤ 40 := hcap
    have hgoal : (evictIfNeeded s).slides.length < 40 := by omega
    exact ⟨⟨cacheSync_evict s hs, Nat.le_of_lt hgoal⟩, hgoal⟩

theorem goodCache_ensureSlide (i : Nat) (p : PhotoPayload)
    (s : ModalState) (h : GoodCache s) :
    GoodCache (ensureSlide i p s) := by
  rw [ensureSlide]
  cases hlk : lookupSlide s.slides i with
  | some sl =>
    obtain ⟨⟨hknd, hlnd, hlsub, hksub⟩, hcap⟩ := h
    have himem : i ∈ keys s.slides := by
      rw [← lookupSlide_isSome_iff, hlk]
      rfl
    refine ⟨⟨hknd, nodup_touchLRU hlnd, ?_, ?_⟩, hcap⟩
    · intro j hj
      rcases mem_touchLRU.1 hj with hj | rfl
      · exact hlsub hj
      · exact himem
    · intro j hj
      exact mem_touchLRU.2 (Or.inl (hksub hj))
  | none =>
    have hi : i ∉ keys s.slides := (lookupSlide_eq_none_iff _ _).1 hlk
    obtain ⟨⟨⟨hknd1, hlnd1, hlsub1, hksub1⟩, _⟩, hlt⟩ :=
      goodCache_evict s h
    have hi1 : i ∉ keys (evictIfNeeded s).slides :=
      fun hmem => hi (keys_evict_subset s hmem)
    refine ⟨⟨List.nodup_cons.2 ⟨hi1, hknd1⟩, nodup_touchLRU hlnd1,
      ?_, ?_⟩, ?_⟩
    · intro j hj
      rcases mem_touchLRU.1 hj with hj | rfl
      · exact List.mem_cons_of_mem _ (hlsub1 hj)
      · exact List.mem_cons_self _ _
    · intro j hj
      rcases List.mem_cons.1 hj with rfl | hj
      · exact mem_touchLRU.2 (Or.inr rfl)
      · exact mem_touchLRU.2 (Or.inl (hksub1 hj))
    · exact hlt

theorem keys_map_fst_preserve {g : Nat × SlideEls → Nat × SlideEls}
    (hg : ∀ kv, (g kv).1 = kv.1) (l : List (Nat × SlideEls)) :
    keys (l.map g) = keys l := by
  induction l with
  | nil => rfl
  | cons kv rest ih =>
    simp only [keys, List.map_cons] at ih ⊢
    rw [hg kv, ih]

theorem goodCache_of_eq {s t : ModalState} (h : GoodCache s)
    (hsl : keys t.slides = keys s.slides)
    (hlen : t.slides.length = s.slides.length)
    (hlru : t.lru = s.lru) : GoodCache t := by
  obtain ⟨⟨hknd, hlnd, hls, hks⟩, hcap⟩ := h
  refine ⟨⟨?_, ?_, ?_, ?_⟩, ?_⟩
  · rw [hsl]; exact hknd
  · rw [hlru]; exact hlnd
  · rw [hlru, hsl]; exact hls
  · rw [hlru, hsl]; exact hks
  · rw [hlen]; exact hcap

theorem activateEntry_fst (i : Nat) (kv : Nat × SlideEls) :
    (activateEntry i kv).1 = kv.1 := by
  rw [activateEntry]
  by_cases hh : kv.1 = i
  · rw [if_pos hh]
  · rw [if_neg hh]

theorem goodCache_activateSlide (i : Nat) (s : ModalState)
    (h : GoodCache s) : GoodCache (activateSlide i s) := by
  apply goodCache_of_eq h
  · exact keys_map_fst_preserve (activateEntry_fst i) _
  · exact List.length_map _ _
  · rfl

theorem keys_setTransformAt (l : List (Nat × SlideEls)) (i : Nat)
    (t : Option Int) : keys (setTransformAt l i t) = keys l :=
  keys_map_fst_preserve
    (fun kv => by by_cases hh : kv.1 = i <;> simp [hh]) _

theorem goodCache_preloadOne (dom : Nat → Option PhotoPayload)
    (i : Nat) (s : ModalState) (h : GoodCache s) :
    GoodCache (preloadOne dom i s) := by
  rw [preloadOne]
  by_cases hs : (lookupSlide s.slides i).isSome
  · rw [if_pos hs]
    exact h
  · rw [if_neg hs]
    cases dom i with
    | none => exact h
    | some payload => exact goodCache_ensureSlide _ _ _ h

theorem goodCache_foldl_preload (dom : Nat → Option PhotoPayload)
    (ids : List Int) (s : ModalState) (h : GoodCache s) :
    GoodCache (ids.foldl
      (fun acc i => if i < 0 then acc else preloadOne dom i.toNat acc)
      s) := by
  induction ids generalizing s with
  | nil => exact h
  | cons a rest ih =>
    rw [List.foldl_cons]
    apply ih
    by_cases ha : a < 0
    · rw [if_pos ha]
      exact h
    · rw [if_neg ha]
      exact goodCache_preloadOne _ _ _ h

theorem goodCache_preloadNeighbors (dom : Nat → Option PhotoPayload)
    (index : Nat) (s : ModalState) (h : GoodCache s) :
    GoodCache (preloadNeighbors dom index s) :=
  goodCache_foldl_preload dom _ s h

theorem goodCache_navigateTo (dom : Nat → Option PhotoPayload)
    (n : Nat) (s : ModalState) (h : GoodCache s) :
    GoodCache (navigateTo dom n s) := by
  rw [navigateTo]
  cases hdom : dom n with
  | none => exact h
  | some payload =>
    apply goodCache_preloadNeighbors
    apply goodCache_activateSlide
    apply goodCache_ensureSlide
    exact goodCache_of_eq h rfl rfl rfl

theorem goodCache_openWith (dom : Nat → Option PhotoPayload)
    (p : PhotoPayload) (s : ModalState) (h : GoodCache s) :
    GoodCache (openWith dom p s) := by
  rw [openWith]
  apply goodCache_preloadNeighbors
  have h4 : GoodCache (activateSlide p.curIndex
      (ensureSlide p.curIndex p
        (updateCaption p { s with curIndex := p.curIndex }))) := by
    apply goodCache_activateSlide
    apply goodCache_ensureSlide
    exact goodCache_of_eq h rfl rfl rfl
  by_cases hdo : (activateSlide p.curIndex
      (ensureSlide p.curIndex p
        (updateCaption p { s with curIndex := p.curIndex }))).dlgOpen
  · rw [if_pos hdo]
    exact h4
  · rw [if_neg hdo]
    exact goodCache_of_eq h4 rfl rfl rfl

theorem goodCache_closeModal (s : ModalState) (h : GoodCache s) :
    GoodCache (closeModal s) := by
  rw [closeModal]
  by_cases hdo : s.dlgOpen
  · rw [if_pos hdo]
    exact goodCache_of_eq h rfl rfl rfl
  · rw [if_neg hdo]
    exact goodCache_of_eq h rfl rfl rfl

theorem goodCache_onKeyDown (dom : Nat → Option PhotoPayload)
    (k : Key) (s : ModalState) (h : GoodCache s) :
    GoodCache (onKeyDown dom k s) := by
  rw [onKeyDown.eq_def]
  by_cases hdo : !s.dlgOpen
  · rw [if_pos hdo]
    exact h
  · rw [if_neg hdo]
    cases k with
    | escape => exact goodCache_closeModal s h
    | other => exact h
    | arrowLeft =>
      by_cases hz : s.curIndex = 0
      · rw [if_pos hz]
        exact h
      · rw [if_neg hz]
        exact goodCache_navigateTo _ _ _ h
    | arrowRight =>
      cases dom (s.curIndex + 1) with
      | none => exact h
      | some _ => exact goodCache_navigateTo _ _ _ h

theorem goodCache_step (dom : Nat → Option PhotoPayload) (op : Op)
    (s : ModalState) (h : GoodCache s) : GoodCache (step dom op s) := by
  cases op with
  | evOpenWith p => exact goodCache_openWith dom p s h
  | evOpen =>
    rw [step, openModal]
    by_cases hdo : s.dlgOpen
    · rw [if_pos hdo]
      exact h
    · rw [if_neg hdo]
      exact goodCache_of_eq h rfl rfl rfl
  | evClose => exact goodCache_closeModal s h
  | evKeyDown k => exact goodCache_onKeyDown dom k s h
  | evPointerDown e now =>
    rw [step, onPointerDown]
    by_cases h1 : !s.dlgOpen
    · rw [if_pos h1]
      exact h
    · rw [if_neg h1]
      by_cases h2 : e.pointerType ≠ PtrType.touch ∧
          e.pointerType ≠ PtrType.pen
      · rw [if_pos h2]
        exact h
      · rw [if_neg h2]
        exact goodCache_of_eq h (keys_setTransformAt _ _ _)
          (List.length_map _ _) rfl
  | evPointerMove e =>
    rw [step, onPointerMove]
    by_cases h1 : s.pointerId ≠ some e.pointerId
    · rw [if_pos h1]
      exact h
    · rw [if_neg h1]
      by_cases h2 : !s.isSwiping ∧
          ¬(10 < (e.clientX - s.startX).natAbs ∧
            ((e.clientY - s.startY).natAbs : ℚ) * ANGLE_LOCK
              < ((e.clientX - s.startX).natAbs : ℚ))
      · rw [if_pos h2]
        exact h
      · rw [if_neg h2]
        exact goodCache_of_eq h (keys_setTransformAt _ _ _)
          (List.length_map _ _) rfl
  | evPointerUp e now =>
    rw [step, onPointerUp]
    by_cases h1 : s.pointerId ≠ some e.pointerId
    · rw [if_pos h1]
      exact h
    · rw [if_neg h1]
      have hs1 : GoodCache { s with
          pointerId := none
          slides := setTransformAt s.slides s.curIndex none } :=
        goodCache_of_eq h (keys_setTransformAt _ _ _)
          (List.length_map _ _) rfl
      by_cases h2 : !s.isSwiping || !swipePassed e now s
      · rw [if_pos h2]
        exact goodCache_of_eq hs1 rfl rfl rfl
      · rw [if_neg h2]
        by_cases h3 : 0 < swipeDx e s
        · rw [if_pos h3]
          by_cases h4 : s.curIndex = 0
          · rw [if_pos h4]
            exact goodCache_of_eq hs1 rfl rfl rfl
          · rw [if_neg h4]
            exact goodCache_of_eq
              (goodCache_navigateTo dom _ _ hs1) rfl rfl rfl
        · rw [if_neg h3]
          cases dom (s.curIndex + 1) with
          | none => exact goodCache_of_eq hs1 rfl rfl rfl
          | some _ =>
            exact goodCache_of_eq
              (goodCache_navigateTo dom _ _ hs1) rfl rfl rfl
  | evPointerCancel e =>
    exact goodCache_of_eq h (keys_setTransformAt _ _ _)
      (List.length_map _ _) rfl
  | evRevealComplete index => exact goodCache_of_eq h rfl rfl rfl

theorem goodCache_run (dom : Nat → Option PhotoPayload) (ops : List Op)
    (s : ModalState) (h : GoodCache s) : GoodCache (run dom ops s) := by
  induction ops generalizing s with
  | nil => exact h
  | cons op rest ih => exact ih _ (goodCache_step dom op s h)

theorem goodCache_init : GoodCache initState := by
  refine ⟨⟨List.nodup_nil, List.nodup_nil, ?_, ?_⟩, ?_⟩
  · intro j hj
    exact absurd hj (List.not_mem_nil j)
  · intro j hj
    exact absurd hj (List.not_mem_nil j)
  · show 0 ≤ MAX_SLIDES
    exact Nat.zero_le _

/-! ## Frame lemmas: the cache operations fix every non-cache field -/

theorem sameOutside_trans {s t u : ModalState} (h1 : sameOutside s t)
    (h2 : sameOutside t u) : sameOutside s u := h2.trans h1

theorem sameOutside_evict (s : ModalState) :
    sameOutside s (evictIfNeeded s) := by
  rw [sameOutside, evictIfNeeded]
  by_cases hlen : s.slides.length < MAX_SLIDES
  · rw [if_pos hlen]
  · rw [if_neg hlen]
    cases findVictim s.curIndex s.lru with
    | none => rfl
    | some victim => rfl

theorem sameOutside_ensure (i : Nat) (p : PhotoPayload)
    (s : ModalState) : sameOutside s (ensureSlide i p s) := by
  rw [ensureSlide]
  cases lookupSlide s.slides i with
  | some _ => exact rfl
  | none => exact sameOutside_evict s

theorem sameOutside_preloadOne (dom : Nat → Option PhotoPayload)
    (i : Nat) (s : ModalState) : sameOutside s (preloadOne dom i s) := by
  rw [preloadOne]
  by_cases hs : (lookupSlide s.slides i).isSome
  · rw [if_pos hs]
    exact rfl
  · rw [if_neg hs]
    cases dom i with
    | none => exact rfl
    | some payload => exact sameOutside_ensure i payload s

theorem sameOutside_foldl_preload (dom : Nat → Option PhotoPayload)
    (ids : List Int) (s : ModalState) :
    sameOutside s (ids.foldl
      (fun acc i => if i < 0 then acc else preloadOne dom i.toNat acc)
      s) := by
  induction ids generalizing s with
  | nil => exact rfl
  | cons a rest ih =>
    rw [List.foldl_cons]
    by_cases ha : a < 0
    · rw [if_pos ha]
      exact ih s
    · rw [if_neg ha]
      exact sameOutside_trans (sameOutside_preloadOne dom a.toNat s)
        (ih _)

theorem sameOutside_preloadNeighbors (dom : Nat → Option PhotoPayload)
    (k : Nat) (s : ModalState) :
    sameOutside s (preloadNeighbors dom k s) :=
  sameOutside_foldl_preload dom _ s

theorem sameOutside_curIndex {s t : ModalState} (h : sameOutside s t) :
    t.curIndex = s.curIndex :=
  congrArg (fun x => x.1) h

theorem sameOutside_dlgOpen {s t : ModalState} (h : sameOutside s t) :
    t.dlgOpen = s.dlgOpen :=
  congrArg (fun x => x.2.1) h

theorem sameOutside_bodyOverflow {s t : ModalState}
    (h : sameOutside s t) : t.bodyOverflow = s.bodyOverflow :=
  congrArg (fun x => x.2.2.1) h

theorem navigateTo_curIndex (dom : Nat → Option PhotoPayload) (n : Nat)
    (s : ModalState) (h : (dom n).isSome = true) :
    (navigateTo dom n s).curIndex = n := by
  rw [navigateTo]
  cases hdom : dom n with
  | none =>
    rw [hdom] at h
    simp at h
  | some payload =>
    have h1 := sameOutside_curIndex (sameOutside_preloadNeighbors dom n
      (activateSlide n (ensureSlide n payload
        (updateCaption payload { s with curIndex := n }))))
    have h2 := sameOutside_curIndex (sameOutside_ensure n payload
      (updateCaption payload { s with curIndex := n }))
    exact h1.trans h2

theorem openWith_scrollLock (dom : Nat → Option PhotoPayload)
    (p : PhotoPayload) (s : ModalState) (h : s.dlgOpen = false) :
    (openWith dom p s).dlgOpen = true ∧
    (openWith dom p s).bodyOverflow = "hidden" := by
  rw [openWith]
  have hX : (activateSlide p.curIndex (ensureSlide p.curIndex p
      (updateCaption p { s with curIndex := p.curIndex }))).dlgOpen
        = false := by
    have h2 := sameOutside_dlgOpen (sameOutside_ensure p.curIndex p
      (updateCaption p { s with curIndex := p.curIndex }))
    exact h2.trans h
  rw [if_neg (by rw [hX]; exact Bool.false_ne_true)]
  constructor
  · exact (sameOutside_dlgOpen
      (sameOutside_preloadNeighbors dom p.curIndex _)).trans rfl
  · exact (sameOutside_bodyOverflow
      (sameOutside_preloadNeighbors dom p.curIndex _)).trans rfl

/-! ## The decodedOnce record only grows -/

theorem mem_insertDecoded {l : List Nat} {i j : Nat} :
    j ∈ insertDecoded l i ↔ j ∈ l ∨ j = i := by
  rw [insertDecoded]
  by_cases h : i ∈ l
  · rw [if_pos h]
    constructor
    · exact Or.inl
    · rintro (hj | rfl)
      · exact hj
      · exact h
  · rw [if_neg h]
    constructor
    · intro hj
      rcases List.mem_cons.1 hj with rfl | hj
      · exact Or.inr rfl
      · exact Or.inl hj
    · rintro (hj | rfl)
      · exact List.mem_cons_of_mem _ hj
      · exact List.mem_cons_self _ _

theorem insertDecoded_of_mem {l : List Nat} {i : Nat} (h : i ∈ l) :
    insertDecoded l i = l := by
  rw [insertDecoded, if_pos h]

theorem subset_insertDecoded (l : List Nat) (i : Nat) :
    l ⊆ insertDecoded l i :=
  fun _ ha => mem_insertDecoded.2 (Or.inl ha)

theorem decoded_ensure (i : Nat) (p : PhotoPayload) (s : ModalState) :
    s.decodedOnce ⊆ (ensureSlide i p s).decodedOnce := by
  rw [ensureSlide]
  cases lookupSlide s.slides i with
  | some _ => exact fun _ ha => ha
  | none =>
    show s.decodedOnce ⊆
      (if i ∈ (evictIfNeeded s).decodedOnce
        then insertDecoded (evictIfNeeded s).decodedOnce i
        else (evictIfNeeded s).decodedOnce)
    simp only [evictIfNeeded_decodedOnce]
    by_cases h : i ∈ s.decodedOnce
    · rw [if_pos h]
      exact subset_insertDecoded _ _
    · rw [if_neg h]
      exact fun _ ha => ha

theorem decoded_preloadOne (dom : Nat → Option PhotoPayload) (i : Nat)
    (s : ModalState) :
    s.decodedOnce ⊆ (preloadOne dom i s).decodedOnce := by
  rw [preloadOne]
  by_cases hs : (lookupSlide s.slides i).isSome
  · rw [if_pos hs]
    exact fun _ ha => ha
  · rw [if_neg hs]
    cases dom i with
    | none => exact fun _ ha => ha
    | some payload => exact decoded_ensure i payload s

theorem decoded_foldl_preload (dom : Nat → Option PhotoPayload)
    (ids : List Int) (s : ModalState) :
    s.decodedOnce ⊆ (ids.foldl
      (fun acc i => if i < 0 then acc else preloadOne dom i.toNat acc)
      s).decodedOnce := by
  induction ids generalizing s with
  | nil => exact fun _ ha => ha
  | cons a rest ih =>
    rw [List.foldl_cons]
    by_cases ha : a < 0
    · rw [if_pos ha]
      exact ih s
    · rw [if_neg ha]
      exact (decoded_preloadOne dom a.toNat s).trans (ih _)

theorem decoded_preloadNeighbors (dom : Nat → Option PhotoPayload)
    (k : Nat) (s : ModalState) :
    s.decodedOnce ⊆ (preloadNeighbors dom k s).decodedOnce :=
  decoded_foldl_preload dom _ s

theorem decoded_navigateTo (dom : Nat → Option PhotoPayload) (n : Nat)
    (s : ModalState) :
    s.decodedOnce ⊆ (navigateTo dom n s).decodedOnce := by
  rw [navigateTo]
  cases dom n with
  | none => exact fun _ ha => ha
  | some payload =>
    exact (decoded_ensure n payload
        (updateCaption payload { s with curIndex := n })).trans
      (decoded_preloadNeighbors dom n
        (activateSlide n (ensureSlide n payload
          (updateCaption payload { s with curIndex := n }))))

theorem decoded_openWith (dom : Nat → Option PhotoPayload)
    (p : PhotoPayload) (s : ModalState) :
    s.decodedOnce ⊆ (openWith dom p s).decodedOnce := by
  rw [openWith]
  have hbase : s.decodedOnce ⊆ (activateSlide p.curIndex
      (ensureSlide p.curIndex p
        (updateCaption p
          { s with curIndex := p.curIndex }))).decodedOnce :=
    decoded_ensure p.curIndex p
      (updateCaption p { s with curIndex := p.curIndex })
  by_cases hdo : (activateSlide p.curIndex (ensureSlide p.curIndex p
      (updateCaption p { s with curIndex := p.curIndex }))).dlgOpen
  · rw [if_pos hdo]
    exact hbase.trans (decoded_preloadNeighbors dom p.curIndex
      (activateSlide p.curIndex (ensureSlide p.curIndex p
        (updateCaption p { s with curIndex := p.curIndex }))))
  · rw [if_neg hdo]
    exact hbase.trans (decoded_preloadNeighbors dom p.curIndex
      { activateSlide p.curIndex (ensureSlide p.curIndex p
          (updateCaption p { s with curIndex := p.curIndex })) with
        dlgOpen := true
        bodyOverflow := "hidden" })

theorem decoded_closeModal (s : ModalState) :
    s.decodedOnce ⊆ (closeModal s).decodedOnce := by
  rw [closeModal]
  by_cases hdo : s.dlgOpen
  · rw [if_pos hdo]
    exact fun _ ha => ha
  · rw [if_neg hdo]
    exact fun _ ha => ha

theorem decoded_onKeyDown (dom : Nat → Option PhotoPayload) (k : Key)
    (s : ModalState) :
    s.decodedOnce ⊆ (onKeyDown dom k s).decodedOnce := by
  rw [onKeyDown.eq_def]
  by_cases hdo : !s.dlgOpen
  · rw [if_pos hdo]
    exact fun _ ha => ha
  · rw [if_neg hdo]
    cases k with
    | escape => exact decoded_closeModal s
    | other => exact fun _ ha => ha
    | arrowLeft =>
      by_cases hz : s.curIndex = 0
      · rw [if_pos hz]
        exact fun _ ha => ha
      · rw [if_neg hz]
        exact decoded_navigateTo dom _ s
    | arrowRight =>
      cases dom (s.curIndex + 1) with
      | none => exact fun _ ha => ha
      | some _ => exact decoded_navigateTo dom _ s

theorem decoded_step (dom : Nat → Option PhotoPayload) (op : Op)
    (s : ModalState) :
    s.decodedOnce ⊆ (step dom op s).decodedOnce := by
  cases op with
  | evOpenWith p => exact decoded_openWith dom p s
  | evOpen =>
    rw [step, openModal]
    by_cases hdo : s.dlgOpen
    · rw [if_pos hdo]
      exact fun _ ha => ha
    · rw [if_neg hdo]
      exact fun _ ha => ha
  | evClose => exact decoded_closeModal s
  | evKeyDown k => exact decoded_onKeyDown dom k s
  | evPointerDown e now =>
    rw [step, onPointerDown]
    by_cases h1 : !s.dlgOpen
    · rw [if_pos h1]
      exact fun _ ha => ha
    · rw [if_neg h1]
      by_cases h2 : e.pointerType ≠ PtrType.touch ∧
          e.pointerType ≠ PtrType.pen
      · rw [if_pos h2]
        exact fun _ ha => ha
      · rw [if_neg h2]
        exact fun _ ha => ha
  | evPointerMove e =>
    rw [step, onPointerMove]
    by_cases h1 : s.pointerId ≠ some e.pointerId
    · rw [if_pos h1]
      exact fun _ ha => ha
    · rw [if_neg h1]
      by_cases h2 : !s.isSwiping ∧
          ¬(10 < (e.clientX - s.startX).natAbs ∧
            ((e.clientY - s.startY).natAbs : ℚ) * ANGLE_LOCK
              < ((e.clientX - s.startX).natAbs : ℚ))
      · rw [if_pos h2]
        exact fun _ ha => ha
      · rw [if_neg h2]
        exact fun _ ha => ha
  | evPointerUp e now =>
    rw [step, onPointerUp]
    by_cases h1 : s.pointerId ≠ some e.pointerId
    · rw [if_pos h1]
      exact fun _ ha => ha
    · rw [if_neg h1]
      by_cases h2 : !s.isSwiping || !swipePassed e now s
      · rw [if_pos h2]
        exact fun _ ha => ha
      · rw [if_neg h2]
        by_cases h3 : 0 < swipeDx e s
        · rw [if_pos h3]
          by_cases h4 : s.curIndex = 0
          · rw [if_pos h4]
            exact fun _ ha => ha
          · rw [if_neg h4]
            exact decoded_navigateTo dom (s.curIndex - 1)
              { s with
                pointerId := none
                slides := setTransformAt s.slides s.curIndex none }
        · rw [if_neg h3]
          cases dom (s.curIndex + 1) with
          | none => exact fun _ ha => ha
          | some _ =>
            exact decoded_navigateTo dom (s.curIndex + 1)
              { s with
                pointerId := none
                slides := setTransformAt s.slides s.curIndex none }
  | evPointerCancel e => exact fun _ ha => ha
  | evRevealComplete index => exact subset_insertDecoded _ _

/-! ## Activation lemmas -/

theorem activateEntry_active (i : Nat) (kv : Nat × SlideEls) :
    (activateEntry i kv).2.active = decide (kv.1 = i) := by
  rw [activateEntry]
  by_cases h : kv.1 = i
  · rw [if_pos h]
    simp [h]
  · rw [if_neg h]
    simp [h]

theorem activateEntry_eq (i : Nat) (kv : Nat × SlideEls) :
    (kv.1 = i → (activateEntry i kv).2.active = true ∧
      (activateEntry i kv).2.ariaHidden = false) ∧
    (kv.1 ≠ i → (activateEntry i kv).2.active = false ∧
      (activateEntry i kv).2.ariaHidden = true ∧
      (activateEntry i kv).2.transform = none) := by
  by_cases h : kv.1 = i
  · refine ⟨fun _ => ?_, fun hne => absurd h hne⟩
    rw [activateEntry, if_pos h]
    exact ⟨rfl, rfl⟩
  · refine ⟨fun he => absurd he h, fun _ => ?_⟩
    rw [activateEntry, if_neg h]
    exact ⟨rfl, rfl, rfl⟩

theorem filter_active_zero (l : List (Nat × SlideEls)) (i : Nat)
    (h : i ∉ keys l) :
    ((l.map (activateEntry i)).filter
      (fun kv => kv.2.active)).length = 0 := by
  induction l with
  | nil => rfl
  | cons kv rest ih =>
    simp only [keys, List.map_cons, List.mem_cons, not_or] at h
    have hact : (activateEntry i kv).2.active = false := by
      rw [activateEntry_active]
      exact decide_eq_false (fun hh => h.1 hh.symm)
    rw [List.map_cons, List.filter_cons, hact]
    simp only [Bool.false_eq_true, if_false]
    exact ih (by simpa [keys] using h.2)

theorem filter_active_one (l : List (Nat × SlideEls)) (i : Nat)
    (hnd : (keys l).Nodup) (hmem : i ∈ keys l) :
    ((l.map (activateEntry i)).filter
      (fun kv => kv.2.active)).length = 1 := by
  induction l with
  | nil => simp [keys] at hmem
  | cons kv rest ih =>
    simp only [keys, List.map_cons, List.nodup_cons] at hnd
    by_cases h : kv.1 = i
    · have hact : (activateEntry i kv).2.active = true := by
        rw [activateEntry_active]
        exact decide_eq_true h
      rw [List.map_cons, List.filter_cons, hact]
      simp only [if_true]
      rw [List.length_cons,
        filter_active_zero rest i (h ▸ hnd.1)]
    · have hact : (activateEntry i kv).2.active = false := by
        rw [activateEntry_active]
        exact decide_eq_false h
      rw [List.map_cons, List.filter_cons, hact]
      simp only [Bool.false_eq_true, if_false]
      have hmem2 : i ∈ keys rest := by
        simp only [keys, List.map_cons, List.mem_cons] at hmem
        rcases hmem with rfl | hmem
        · exact absurd rfl h
        · simpa [keys] using hmem
      exact ih hnd.2 hmem2

theorem lookupSlide_setTransformAt (l : List (Nat × SlideEls))
    (i : Nat) (t : Option Int) :
    lookupSlide (setTransformAt l i t) i
      = (lookupSlide l i).map (fun sl => { sl with transform := t }) := by
  induction l with
  | nil => rfl
  | cons kv rest ih =>
    by_cases h : kv.1 = i
    · simp only [setTransformAt, List.map_cons, if_pos h,
        lookupSlide] at ih ⊢
      rfl
    · simp only [setTransformAt, List.map_cons, if_neg h,
        lookupSlide] at ih ⊢
      exact ih

/-! ## Claims -/

/-- C1: Along every sequence of operations from the initial state the
number of live (non-evicted) slides in the cache never exceeds the
capacity MAX_SLIDES = 40, and an evictIfNeeded call never removes the
slide cached at the current active index. -/
theorem c1_cache_bound_active_never_evicted :
    (∀ (dom : Nat → Option PhotoPayload) (ops : List Op),
      liveSlideCount (run dom ops initState) ≤ MAX_SLIDES) ∧
    (∀ s : ModalState,
      lookupSlide (evictIfNeeded s).slides s.curIndex
        = lookupSlide s.slides s.curIndex) :=
  ⟨fun dom ops => (goodCache_run dom ops initState goodCache_init).2,
   evictIfNeeded_lookup_cur⟩

/-- C2: In any reachable state whose cache holds a slide at index i,
activateSlide i leaves exactly one tracked slide Active (class
active, aria-hidden false) and every other tracked slide Inactive
(class cleared, aria-hidden true). -/
theorem c2_exactly_one_active (dom : Nat → Option PhotoPayload)
    (ops : List Op) (i : Nat)
    (hmem : (lookupSlide (run dom ops initState).slides i).isSome
      = true) :
    countActive (activateSlide i (run dom ops initState)) = 1 ∧
    ∀ kv ∈ (activateSlide i (run dom ops initState)).slides,
      (kv.1 = i → kv.2.active = true ∧ kv.2.ariaHidden = false) ∧
      (kv.1 ≠ i → kv.2.active = false ∧ kv.2.ariaHidden = true) := by
  have hgc := goodCache_run dom ops initState goodCache_init
  have hnd : (keys (run dom ops initState).slides).Nodup := hgc.1.1
  have him : i ∈ keys (run dom ops initState).slides :=
    (lookupSlide_isSome_iff _ _).1 hmem
  constructor
  · exact filter_active_one _ i hnd him
  · intro kv hkv
    obtain ⟨kv0, _, rfl⟩ := List.mem_map.1 hkv
    have hfst := activateEntry_fst i kv0
    constructor
    · intro he
      exact (activateEntry_eq i kv0).1 (by rw [← hfst]; exact he)
    · intro hne
      obtain ⟨ha, hh, _⟩ :=
        (activateEntry_eq i kv0).2 (by rw [← hfst]; exact hne)
      exact ⟨ha, hh⟩

theorem c2_exactly_one_active_witness :
    countActive (activateSlide 0
      (run domNone [Op.evOpenWith pEmpty] initState)) = 1 :=
  (c2_exactly_one_active domNone [Op.evOpenWith pEmpty] 0 (by decide)).1

/-- C10: Along every sequence of operations from the initial state
the LRU list holds no duplicate indices and its entries are exactly
the key set of the slide map. -/
theorem c10_lru_matches_cache (dom : Nat → Option PhotoPayload)
    (ops : List Op) :
    (run dom ops initState).lru.Nodup ∧
    ∀ i, i ∈ (run dom ops initState).lru ↔
      i ∈ keys (run dom ops initState).slides := by
  obtain ⟨⟨_, hlnd, hls, hks⟩, _⟩ :=
    goodCache_run dom ops initState goodCache_init
  exact ⟨hlnd, fun i => ⟨fun h => hls h, fun h => hks h⟩⟩

/-- C4: An evictIfNeeded call on a coherent cache at capacity scans
the LRU order from least- to most-recently-used, skips the current
active index, removes exactly the first eligible victim from both the
slide map and the LRU list, and stops after that single removal. -/
theorem c4_evict_first_eligible (s : ModalState) (hs : CacheSync s)
    (hcap : MAX_SLIDES ≤ s.slides.length) :
    ∃ victim pre post,
      s.lru = pre ++ victim :: post ∧
      (∀ x ∈ pre, x = s.curIndex) ∧
      victim ≠ s.curIndex ∧
      lookupSlide (evictIfNeeded s).slides victim = none ∧
      (∀ j, j ≠ victim →
        lookupSlide (evictIfNeeded s).slides j
          = lookupSlide s.slides j) ∧
      (evictIfNeeded s).lru = pre ++ post ∧
      (evictIfNeeded s).slides.length + 1 = s.slides.length ∧
      (evictIfNeeded s).lru.length + 1 = s.lru.length := by
  obtain ⟨victim, pre, post, heq, hpre, hne, hvk, hsl, hlru, hl1, hl2⟩ :=
    evictIfNeeded_spec s hs hcap
  refine ⟨victim, pre, post, heq, hpre, hne, ?_, ?_, hlru, hl1, hl2⟩
  · rw [hsl]
    exact lookupSlide_removeSlide_self _ _
  · intro j hj
    rw [hsl]
    exact lookupSlide_removeSlide_ne _ hj

theorem c4_evict_first_eligible_witness :
    ∃ victim pre post,
      fullState.lru = pre ++ victim :: post ∧
      (∀ x ∈ pre, x = fullState.curIndex) ∧
      victim ≠ fullState.curIndex ∧
      lookupSlide (evictIfNeeded fullState).slides victim = none ∧
      (∀ j, j ≠ victim →
        lookupSlide (evictIfNeeded fullState).slides j
          = lookupSlide fullState.slides j) ∧
      (evictIfNeeded fullState).lru = pre ++ post ∧
      (evictIfNeeded fullState).slides.length + 1
        = fullState.slides.length ∧
      (evictIfNeeded fullState).lru.length + 1
        = fullState.lru.length :=
  c4_evict_first_eligible fullState (by decide) (by decide)

/-- C3: The decoded record only moves from not-decoded to decoded and
does so at most once: when an index is already on the record, a later
ensureSlide rebuild of its slide wires the reveal immediately rather
than registering a new decode operation and leaves the record
unchanged, and no operation ever removes an index from the record. -/
theorem c3_decode_once :
    (∀ (i : Nat) (p : PhotoPayload) (s : ModalState),
      i ∈ s.decodedOnce → lookupSlide s.slides i = none →
      (∃ sl, lookupSlide (ensureSlide i p s).slides i = some sl ∧
        sl.reveal = RevealMode.immediate) ∧
      (ensureSlide i p s).decodedOnce = s.decodedOnce) ∧
    (∀ (dom : Nat → Option PhotoPayload) (op : Op) (s : ModalState),
      s.decodedOnce ⊆ (step dom op s).decodedOnce) := by
  constructor
  · intro i p s hdec hnone
    simp only [ensureSlide, hnone]
    have hdec1 : i ∈ (evictIfNeeded s).decodedOnce := by
      rw [evictIfNeeded_decodedOnce]
      exact hdec
    refine ⟨⟨⟨i, false, true,
        optionTruthy p.placeholder &&
          !(decide (i ∈ (evictIfNeeded s).decodedOnce)),
        none,
        if i ∈ (evictIfNeeded s).decodedOnce
          then RevealMode.immediate else RevealMode.pending⟩,
      ?_, ?_⟩, ?_⟩
    · exact lookupSlide_cons_self i _ _
    · show (if i ∈ (evictIfNeeded s).decodedOnce
          then RevealMode.immediate else RevealMode.pending)
        = RevealMode.immediate
      rw [if_pos hdec1]
    · show (if i ∈ (evictIfNeeded s).decodedOnce
          then insertDecoded (evictIfNeeded s).decodedOnce i
          else (evictIfNeeded s).decodedOnce) = s.decodedOnce
      rw [if_pos hdec1, insertDecoded_of_mem hdec1,
        evictIfNeeded_decodedOnce]
  · exact decoded_step

theorem c3_decode_once_witness :
    (∃ sl, lookupSlide (ensureSlide 5 pEmpty decodedState).slides 5
        = some sl ∧ sl.reveal = RevealMode.immediate) ∧
    (ensureSlide 5 pEmpty decodedState).decodedOnce
      = decodedState.decodedOnce :=
  c3_decode_once.1 5 pEmpty decodedState (by decide) (by decide)

/-- C5: Boundary navigation is a silent no-op: navigateTo with no
resolvable thumbnail at the target index returns with the whole state
(current index, caption, cache, active slide) unchanged, and the
keyboard handler returns the state untouched for ArrowLeft at index 0
and for ArrowRight past the last resolvable thumbnail. -/
theorem c5_boundary_noop (dom : Nat → Option PhotoPayload)
    (s : ModalState) (nextIndex : Nat) :
    (dom nextIndex = none → navigateTo dom nextIndex s = s) ∧
    (s.dlgOpen = true → s.curIndex = 0 →
      onKeyDown dom Key.arrowLeft s = s) ∧
    (s.dlgOpen = true → dom (s.curIndex + 1) = none →
      onKeyDown dom Key.arrowRight s = s) := by
  refine ⟨?_, ?_, ?_⟩
  · intro h
    rw [navigateTo, h]
  · intro h1 h2
    simp only [onKeyDown.eq_def, h1, Bool.not_true, Bool.false_eq_true,
      if_false]
    rw [if_pos h2]
  · intro h1 h2
    simp only [onKeyDown.eq_def, h1, Bool.not_true, Bool.false_eq_true,
      if_false, h2]

theorem c5_boundary_noop_witness :
    navigateTo domNone 3 initState = initState ∧
    onKeyDown domNone Key.arrowLeft openIdle = openIdle ∧
    onKeyDown domNone Key.arrowRight openIdle = openIdle :=
  ⟨(c5_boundary_noop domNone initState 3).1 rfl,
   (c5_boundary_noop domNone openIdle 3).2.1 rfl rfl,
   (c5_boundary_noop domNone openIdle 3).2.2 rfl rfl⟩

/-! ## Gesture lemmas -/

theorem swipePassed_iff (e : PtrEvent) (now : Int) (s : ModalState) :
    swipePassed e now s = true ↔
      (SWIPE_PX < (swipeDx e s).natAbs ∨
       VELOCITY_PX_PER_MS < swipeVelocity e now s) := by
  rw [swipePassed]
  simp [Bool.or_eq_true, decide_eq_true_eq]

theorem pointerUpCommits_iff (dom : Nat → Option PhotoPayload)
    (e : PtrEvent) (now : Int) (s : ModalState)
    (hpid : s.pointerId = some e.pointerId) :
    pointerUpCommits dom e now s = true ↔
      (s.isSwiping = true ∧
       (SWIPE_PX < (swipeDx e s).natAbs ∨
        VELOCITY_PX_PER_MS < swipeVelocity e now s) ∧
       (if 0 < swipeDx e s then s.curIndex ≠ 0
        else (dom (s.curIndex + 1)).isSome = true)) := by
  have hpid2 : ¬(s.pointerId ≠ some e.pointerId) := fun hh => hh hpid
  rw [pointerUpCommits, if_neg hpid2]
  by_cases hsw : s.isSwiping = true
  · by_cases hpass : swipePassed e now s = true
    · have h2 : ¬((!s.isSwiping || !swipePassed e now s) = true) := by
        rw [hsw, hpass]
        decide
      rw [if_neg h2]
      by_cases hdx : 0 < swipeDx e s
      · rw [if_pos hdx, if_pos hdx]
        simp only [decide_eq_true_eq]
        constructor
        · intro hc
          exact ⟨hsw, (swipePassed_iff e now s).1 hpass, hc⟩
        · intro hc
          exact hc.2.2
      · rw [if_neg hdx, if_neg hdx]
        constructor
        · intro hc
          exact ⟨hsw, (swipePassed_iff e now s).1 hpass, hc⟩
        · intro hc
          exact hc.2.2
    · have hpf : swipePassed e now s = false := by
        cases hq : swipePassed e now s
        · rfl
        · exact absurd hq hpass
      have h2 : (!s.isSwiping || !swipePassed e now s) = true := by
        rw [hpf]
        simp
      rw [if_pos h2]
      constructor
      · intro hc
        exact absurd hc (by simp)
      · rintro ⟨_, hp, _⟩
        exact (hpass ((swipePassed_iff e now s).2 hp)).elim
  · have hswf : s.isSwiping = false := by
      cases hq : s.isSwiping
      · rfl
      · exact absurd hq hsw
    have h2 : (!s.isSwiping || !swipePassed e now s) = true := by
      rw [hswf]
      simp
    rw [if_pos h2]
    constructor
    · intro hc
      exact absurd hc (by simp)
    · rintro ⟨hc, _, _⟩
      exact (hsw hc).elim

theorem onPointerUp_nocommit (dom : Nat → Option PhotoPayload)
    (e : PtrEvent) (now : Int) (s : ModalState)
    (hpid : s.pointerId = some e.pointerId)
    (hc : pointerUpCommits dom e now s = false) :
    onPointerUp dom e now s = { s with
      pointerId := none
      slides := setTransformAt s.slides s.curIndex none
      isSwiping := false } := by
  have hpid2 : ¬(s.pointerId ≠ some e.pointerId) := fun hh => hh hpid
  rw [pointerUpCommits, if_neg hpid2] at hc
  rw [onPointerUp, if_neg hpid2]
  by_cases h2 : (!s.isSwiping || !swipePassed e now s) = true
  · rw [if_pos h2]
  · rw [if_neg h2] at hc ⊢
    by_cases h3 : 0 < swipeDx e s
    · rw [if_pos h3] at hc ⊢
      have h4 : s.curIndex = 0 := by
        by_contra hne
        rw [decide_eq_true hne] at hc
        simp at hc
      rw [if_pos h4]
    · rw [if_neg h3] at hc ⊢
      cases hdom : dom (s.curIndex + 1) with
      | none => rfl
      | some _ =>
        rw [hdom] at hc
        simp at hc

theorem onPointerUp_commit_left (dom : Nat → Option PhotoPayload)
    (e : PtrEvent) (now : Int) (s : ModalState)
    (hpid : s.pointerId = some e.pointerId)
    (hsw : s.isSwiping = true) (hpass : swipePassed e now s = true)
    (hdx : 0 < swipeDx e s) (hcur : s.curIndex ≠ 0) :
    onPointerUp dom e now s =
      { navigateTo dom (s.curIndex - 1)
          { s with
            pointerId := none
            slides := setTransformAt s.slides s.curIndex none } with
        isSwiping := false } := by
  have hpid2 : ¬(s.pointerId ≠ some e.pointerId) := fun hh => hh hpid
  rw [onPointerUp, if_neg hpid2]
  have h2 : ¬((!s.isSwiping || !swipePassed e now s) = true) := by
    rw [hsw, hpass]
    decide
  rw [if_neg h2, if_pos hdx, if_neg hcur]

theorem onPointerUp_commit_right (dom : Nat → Option PhotoPayload)
    (e : PtrEvent) (now : Int) (s : ModalState)
    (hpid : s.pointerId = some e.pointerId)
    (hsw : s.isSwiping = true) (hpass : swipePassed e now s = true)
    (hdx : ¬(0 < swipeDx e s)) (p : PhotoPayload)
    (hdom : dom (s.curIndex + 1) = some p) :
    onPointerUp dom e now s =
      { navigateTo dom (s.curIndex + 1)
          { s with
            pointerId := none
            slides := setTransformAt s.slides s.curIndex none } with
        isSwiping := false } := by
  have hpid2 : ¬(s.pointerId ≠ some e.pointerId) := fun hh => hh hpid
  rw [onPointerUp, if_neg hpid2]
  have h2 : ¬((!s.isSwiping || !swipePassed e now s) = true) := by
    rw [hsw, hpass]
    decide
  rw [if_neg h2, if_neg hdx, hdom]

/-- C6 counterexample: a gesture with the Swiping lock reached and a
60 px rightward displacement passing both thresholds does not commit
navigation when the current index is 0, so committing is not
equivalent to Swiping plus a passed threshold. -/
theorem c6_commit_iff_counterexample :
    swipeSt.isSwiping = true ∧
    swipeSt.pointerId = some evRight60.pointerId ∧
    swipePassed evRight60 100 swipeSt = true ∧
    pointerUpCommits domNone evRight60 100 swipeSt = false ∧
    (onPointerUp domNone evRight60 100 swipeSt).curIndex
      = swipeSt.curIndex ∧
    (onPointerUp domNone evRight60 100 swipeSt).slides
      = swipeSt.slides := by
  decide

/-- C6 amended: with a matching pointer id, pointer-up commits
navigation exactly when the gesture is in Swiping state, the absolute
displacement exceeds 50 px or the velocity (absolute displacement
over clamped elapsed milliseconds) exceeds 0.5 px/ms, and the target
index resolves (index above 0 for a rightward drag; a thumbnail at
index+1 otherwise); a non-committing pointer-up keeps the current
index and snaps the active slide transform back to zero, and a
committing one moves the current index to the neighbor. -/
theorem c6_swipe_threshold_amended (dom : Nat → Option PhotoPayload)
    (e : PtrEvent) (now : Int) (s : ModalState)
    (hpid : s.pointerId = some e.pointerId) :
    (pointerUpCommits dom e now s = true ↔
      (s.isSwiping = true ∧
       (SWIPE_PX < (swipeDx e s).natAbs ∨
        VELOCITY_PX_PER_MS < swipeVelocity e now s) ∧
       (if 0 < swipeDx e s then s.curIndex ≠ 0
        else (dom (s.curIndex + 1)).isSome = true))) ∧
    (pointerUpCommits dom e now s = false →
      (onPointerUp dom e now s).curIndex = s.curIndex ∧
      lookupSlide (onPointerUp dom e now s).slides s.curIndex
        = (lookupSlide s.slides s.curIndex).map
            (fun sl => { sl with transform := none })) ∧
    (pointerUpCommits dom e now s = true → 0 < swipeDx e s →
      (dom (s.curIndex - 1)).isSome = true →
      (onPointerUp dom e now s).curIndex = s.curIndex - 1) ∧
    (pointerUpCommits dom e now s = true → ¬(0 < swipeDx e s) →
      (onPointerUp dom e now s).curIndex = s.curIndex + 1) := by
  refine ⟨pointerUpCommits_iff dom e now s hpid, ?_, ?_, ?_⟩
  · intro hc
    rw [onPointerUp_nocommit dom e now s hpid hc]
    exact ⟨rfl, lookupSlide_setTransformAt _ _ _⟩
  · intro hc hdx hprev
    obtain ⟨hsw, hp, hres⟩ :=
      (pointerUpCommits_iff dom e now s hpid).1 hc
    rw [if_pos hdx] at hres
    rw [onPointerUp_commit_left dom e now s hpid hsw
      ((swipePassed_iff e now s).2 hp) hdx hres]
    exact navigateTo_curIndex dom (s.curIndex - 1) _ hprev
  · intro hc hdx
    obtain ⟨hsw, hp, hres⟩ :=
      (pointerUpCommits_iff dom e now s hpid).1 hc
    rw [if_neg hdx] at hres
    obtain ⟨p, hdom⟩ := Option.isSome_iff_exists.1 hres
    rw [onPointerUp_commit_right dom e now s hpid hsw
      ((swipePassed_iff e now s).2 hp) hdx p hdom]
    exact navigateTo_curIndex dom (s.curIndex + 1) _ hres

theorem c6_swipe_threshold_amended_witness :
    pointerUpCommits domSix evLeft60 100 swipeSt2 = true ∧
    (onPointerUp domSix evLeft60 100 swipeSt2).curIndex
      = swipeSt2.curIndex + 1 :=
  ⟨by decide,
   (c6_swipe_threshold_amended domSix evLeft60 100 swipeSt2
      rfl).2.2.2 (by decide) (by decide)⟩

/-- C7 counterexample: while pointer 1 is tracked, a pointer-down of
touch pointer 2 is not ignored: it replaces the tracked pointer id. -/
theorem c7_second_pointer_counterexample :
    trackSt.pointerId = some 1 ∧
    evSecond.pointerId = 2 ∧
    evSecond.pointerType = PtrType.touch ∧
    trackSt.dlgOpen = true ∧
    (onPointerDown evSecond 50 trackSt).pointerId = some 2 := by
  decide

/-- C7 amended: a touch or pen pointer-down while the dialog is open
always takes over the gesture: it records that pointer id and resets
the gesture start state, even when another pointer was tracked; and
pointer-move and pointer-up events whose pointer id differs from the
tracked one leave the state unchanged. -/
theorem c7_pointer_tracking_amended (e : PtrEvent) (now : Int)
    (s : ModalState) :
    (s.dlgOpen = true →
      (e.pointerType = PtrType.touch ∨ e.pointerType = PtrType.pen) →
      (onPointerDown e now s).pointerId = some e.pointerId ∧
      (onPointerDown e now s).isSwiping = false ∧
      (onPointerDown e now s).startX = e.clientX) ∧
    (s.pointerId ≠ some e.pointerId → onPointerMove e s = s) ∧
    (∀ dom : Nat → Option PhotoPayload,
      s.pointerId ≠ some e.pointerId → onPointerUp dom e now s = s) := by
  refine ⟨?_, ?_, ?_⟩
  · intro h1 h2
    rw [onPointerDown, if_neg (by rw [h1]; simp),
      if_neg (fun hc => by
        rcases h2 with h2 | h2
        · exact hc.1 h2
        · exact hc.2 h2)]
    exact ⟨rfl, rfl, rfl⟩
  · intro h
    rw [onPointerMove, if_pos h]
  · intro dom h
    rw [onPointerUp, if_pos h]

theorem c7_pointer_tracking_amended_witness :
    (onPointerDown evSecond 50 trackSt).pointerId = some 2 ∧
    onPointerMove evSecond initState = initState :=
  ⟨((c7_pointer_tracking_amended evSecond 50 trackSt).1 rfl
      (Or.inl rfl)).1,
   (c7_pointer_tracking_amended evSecond 50 initState).2.1
     (by decide)⟩

/-- C8 counterexample: with every optional caption field absent, the
date, description and location fields render the empty string, not
the placeholder glyph. -/
theorem c8_caption_placeholder_counterexample :
    pEmpty.date = none ∧ pEmpty.description = none ∧
    pEmpty.location = none ∧
    (updateCaption pEmpty initState).capDate = "" ∧
    (updateCaption pEmpty initState).capDesc = "" ∧
    (updateCaption pEmpty initState).capLocation = "" ∧
    (updateCaption pEmpty initState).capDate ≠ "—" := by
  decide

/-- C8 amended: only the camera and film caption fields fall back to
the placeholder glyph when absent; the date, description and location
fields fall back to the empty string. -/
theorem c8_caption_placeholder_amended (p : PhotoPayload)
    (s : ModalState) :
    (p.camera = none → (updateCaption p s).capCamera = "—") ∧
    (p.film = none → (updateCaption p s).capFilm = "—") ∧
    (p.date = none → (updateCaption p s).capDate = "") ∧
    (p.description = none → (updateCaption p s).capDesc = "") ∧
    (p.location = none → (updateCaption p s).capLocation = "") := by
  refine ⟨fun h => ?_, fun h => ?_, fun h => ?_, fun h => ?_,
    fun h => ?_⟩ <;> simp [updateCaption, h]

theorem c8_caption_placeholder_amended_witness :
    (updateCaption pEmpty initState).capCamera = "—" ∧
    (updateCaption pEmpty initState).capDate = "" :=
  ⟨(c8_caption_placeholder_amended pEmpty initState).1 rfl,
   (c8_caption_placeholder_amended pEmpty initState).2.2.1 rfl⟩

/-- C9 counterexample: the bare open() helper shows the modal without
locking page scroll, so not every Closed-to-Open transition locks
scroll. -/
theorem c9_open_scroll_counterexample :
    initState.dlgOpen = false ∧
    (openModal initState).dlgOpen = true ∧
    (openModal initState).bodyOverflow ≠ "hidden" := by
  decide

/-- C9 amended: openWith locks page scroll when it opens the closed
modal; the bare open() helper opens the dialog without touching the
scroll lock; and close() always releases the scroll lock and leaves
the dialog closed. -/
theorem c9_scroll_lock_amended (dom : Nat → Option PhotoPayload)
    (p : PhotoPayload) (s : ModalState) :
    (s.dlgOpen = false →
      (openWith dom p s).dlgOpen = true ∧
      (openWith dom p s).bodyOverflow = "hidden") ∧
    ((openModal s).bodyOverflow = s.bodyOverflow) ∧
    ((closeModal s).bodyOverflow = "" ∧
      (closeModal s).dlgOpen = false) := by
  refine ⟨fun h => openWith_scrollLock dom p s h, ?_, ?_⟩
  · rw [openModal]
    by_cases hdo : s.dlgOpen
    · rw [if_pos hdo]
    · rw [if_neg hdo]
  · rw [closeModal]
    by_cases hdo : s.dlgOpen
    · rw [if_pos hdo]
      exact ⟨rfl, rfl⟩
    · rw [if_neg hdo]
      exact ⟨rfl, by simpa using hdo⟩

theorem c9_scroll_lock_amended_witness :
    (openWith domNone pEmpty initState).dlgOpen = true ∧
    (openWith domNone pEmpty initState).bodyOverflow = "hidden" :=
  (c9_scroll_lock_amended domNone pEmpty initState).1 rfl

end PhotoModal
